import Mathlib

/-!
Shallow embedding of the `ecoforest_ecogeo` integration core
(`custom_components/ecoforest_ecogeo/overrides/api.py`): register-catalog
building, range coalescing, model detection, the polling loop with retry,
and the typed decoder.  Python `dict`s are modelled as association lists
with insert-or-overwrite update, machine integers as `Nat`/`Int`, Python
floats as `Rat` (every value handled here is an integer divided by 10, for
which binary-float arithmetic and the rational model agree), and fallible
code as `Option`/`Except`.
-/

namespace EcoGeo

/-- Python dict assignment `m[k] = v`: if the key is present its value is
replaced in place, otherwise the pair is appended.  (Keys of dicts built
this way are unique, so replacing the first occurrence is faithful.) -/
def updateAssoc {κ ν : Type} [BEq κ] : List (κ × ν) → κ → ν → List (κ × ν)
  | [], k, v => [(k, v)]
  | p :: rest, k, v => if p.1 == k then (k, v) :: rest else p :: updateAssoc rest k v

/-- Value of one hexadecimal digit, as accepted by Python `int(s, 16)`
(codes 48-57 are `0`-`9`, 97-102 are `a`-`f`, 65-70 are `A`-`F`). -/
def hexDigitVal (c : Char) : Option Nat :=
  if 48 ≤ c.toNat ∧ c.toNat ≤ 57 then some (c.toNat - 48)
  else if 97 ≤ c.toNat ∧ c.toNat ≤ 102 then some (c.toNat - 87)
  else if 65 ≤ c.toNat ∧ c.toNat ≤ 70 then some (c.toNat - 55)
  else none

/-- Value of one decimal digit, as accepted by Python `int(s)`. -/
def decDigitVal (c : Char) : Option Nat :=
  if 48 ≤ c.toNat ∧ c.toNat ≤ 57 then some (c.toNat - 48) else none

/-- Accumulating digit fold used by `parseNatBase`. -/
def digitsToNat (dval : Char → Option Nat) (base : Nat) : List Char → Nat → Option Nat
  | [], acc => some acc
  | c :: cs, acc =>
    match dval c with
    | none => none
    | some d => digitsToNat dval base cs (base * acc + d)

/-- Python `int(s, base)` restricted to plain digit strings (the register
protocol only ever delivers such strings); anything else fails. -/
def parseNatBase (dval : Char → Option Nat) (base : Nat) (s : String) : Option Nat :=
  match s.data with
  | [] => none
  | l => digitsToNat dval base l 0

/-- `EcoGeoApi.parse_ecoforest_int`: parse as unsigned base-16, keep values
at most 32768, otherwise subtract 65536.  `none` models the `ValueError`
Python raises on a malformed literal. -/
def parse_ecoforest_int (value : String) : Option Int :=
  (parseNatBase hexDigitVal 16 value).map fun (result : Nat) =>
    if (result : Int) ≤ 32768 then (result : Int) else (result : Int) - 65536

/-- `EcoGeoApi.parse_ecoforest_bool`: `bool(int(value))`. -/
def parse_ecoforest_bool (value : String) : Option Bool :=
  (parseNatBase decDigitVal 10 value).map fun n => n != 0

/-- `EcoGeoApi.parse_ecoforest_float`: the int decoding divided by 10,
modelled exactly over the rationals. -/
def parse_ecoforest_float (value : String) : Option Rat :=
  (parse_ecoforest_int value).map fun (n : Int) => (n : Rat) / 10

/-- Prefix test on character lists, used by the substring test below. -/
def startsWithChars : List Char → List Char → Bool
  | [], _ => true
  | _ :: _, [] => false
  | a :: as, b :: bs => a == b && startsWithChars as bs

/-- Contiguous-substring test on character lists (Python `needle in hay`). -/
def hasSubChars (needle : List Char) : List Char → Bool
  | [] => needle.isEmpty
  | b :: bs => startsWithChars needle (b :: bs) || hasSubChars needle bs

/-- Python `needle in hay` on strings. -/
def containsSub (hay needle : String) : Bool :=
  hasSubChars needle.data hay.data

/-- Python `str.lower` (the names handled here are ASCII). -/
def lowerStr (s : String) : String :=
  String.mk (s.data.map Char.toLower)

/-- Characters the slug keeps: codes 97-122 are lowercase letters and
48-57 are digits, matching the character class of the regex in
`_slugify`. -/
def isSlugChar (c : Char) : Bool :=
  (97 ≤ c.toNat && c.toNat ≤ 122) || (48 ≤ c.toNat && c.toNat ≤ 57)

/-- One pass of the substitution replacing every maximal run of
non-slug characters with a single underscore; the flag records whether
the scanner is inside such a run. -/
def collapseRuns : List Char → Bool → List Char
  | [], _ => []
  | c :: cs, inRun =>
    if isSlugChar c then c :: collapseRuns cs false
    else if inRun then collapseRuns cs true
    else '_' :: collapseRuns cs true

/-- Python `str.strip` with the underscore as its only stripped character. -/
def stripUnderscores (l : List Char) : List Char :=
  ((l.dropWhile (· == '_')).reverse.dropWhile (· == '_')).reverse

/-- The module's `_slugify`: lowercase, replace runs outside the class of
lowercase letters and digits by one underscore, strip underscores at both
ends. -/
def _slugify (name : String) : String :=
  String.mk (stripUnderscores (collapseRuns (name.data.map Char.toLower) false))

/-- The module's `POWER_TERMS` list. -/
def POWER_TERMS : List String :=
  [("power"), ("capacity"), ("PF"), ("cop"), ("consumption"), ("production")]

/-- The module's `_infer_entity_type`: case-insensitive substring checks
in source order. -/
def _infer_entity_type (name : String) : String :=
  let n := lowerStr name
  if containsSub n ("temperature") then ("temperature")
  else if containsSub n ("pressure") then ("pressure")
  else if POWER_TERMS.any (fun term => containsSub (lowerStr n) (lowerStr term)) then ("power")
  else ("measurement")

/-- The module's `DataTypes` constants. -/
def DataTypes.Register : Nat := 1

/-- Coil address-space tag of the `DataTypes` class. -/
def DataTypes.Coil : Nat := 2

/-- The module's `Operations.Get` dict: operation code per address space. -/
def Operations.Get (dt : Nat) : Nat :=
  if dt = DataTypes.Coil then 2001 else 2002

/-- The fixed base address of the model-identifier register block. -/
def MODEL_ADDRESS : Nat := 5323

/-- The fixed length of the model-identifier register block. -/
def MODEL_LENGTH : Nat := 6

/-- One value of the per-variant mapping dict built by `_build_mapping`. -/
structure RegDef where
  data_type : Nat
  type : String
  address : Nat
  entity_type : String
deriving DecidableEq

/-- A mapping dict from field key to register definition, in dict order. -/
abbrev Mapping := List (String × RegDef)

/-- One variant section of `modbus_info.json`: the three typed lists of
(name, address) definitions. -/
structure Block where
  analog : List (String × Nat)
  integer : List (String × Nat)
  boolean : List (String × Nat)

/-- The module's `_build_mapping`: fold the analog, integer and boolean
lists in order into a dict keyed by slug; a colliding key overwrites. -/
def _build_mapping (block : Block) : Mapping :=
  let m1 := block.analog.foldl (fun m it =>
    updateAssoc m (_slugify it.1)
      { data_type := DataTypes.Register, type := ("float"), address := it.2,
        entity_type := _infer_entity_type it.1 }) []
  let m2 := block.integer.foldl (fun m it =>
    let inferred := _infer_entity_type it.1
    let ty := if inferred = ("power") ∨ inferred = ("temperature")
              then ("float") else ("int")
    updateAssoc m (_slugify it.1)
      { data_type := DataTypes.Register, type := ty, address := it.2,
        entity_type := inferred }) m1
  block.boolean.foldl (fun m it =>
    updateAssoc m (_slugify it.1)
      { data_type := DataTypes.Coil, type := ("boolean"), address := it.2,
        entity_type := ("measurement") }) m2

/-- Inner scan of `_build_requests`: with the current run open from
`start` through `prev`, either extend it with a consecutive address or
close it and open a new run at the gap; the final run is closed at the
end of the input. -/
def coalesceGo (start prev : Nat) : List Nat → List (Nat × Nat)
  | [] => [(start, prev - start + 1)]
  | addr :: rest =>
    if addr ≠ prev + 1 then (start, prev - start + 1) :: coalesceGo addr addr rest
    else coalesceGo start addr rest

/-- The range coalescer of `_build_requests` for one address space: sort
the addresses, then scan once, merging consecutive addresses into
(start, length) runs.  An empty address list yields no requests. -/
def coalesce (addresses : List Nat) : List (Nat × Nat) :=
  match List.insertionSort (· ≤ ·) addresses with
  | [] => []
  | a :: rest => coalesceGo a a rest

/-- The per-variant request table: one coalesced range list per address
space. -/
structure Requests where
  register : List (Nat × Nat)
  coil : List (Nat × Nat)
deriving DecidableEq

/-- The module's `_build_requests`: coalesce the addresses of each
address space of a mapping. -/
def _build_requests (mapping : Mapping) : Requests :=
  { register := coalesce ((mapping.filter
      (fun p => p.2.data_type == DataTypes.Register)).map (fun p => p.2.address)),
    coil := coalesce ((mapping.filter
      (fun p => p.2.data_type == DataTypes.Coil)).map (fun p => p.2.address)) }

/-- The set of addresses covered by a list of (start, length) ranges. -/
def covered (rs : List (Nat × Nat)) (x : Nat) : Prop :=
  ∃ r ∈ rs, r.1 ≤ x ∧ x < r.1 + r.2

/-- A decoded field value: Python's int, float (exact rational) or bool. -/
inductive Value
  | int : Int → Value
  | float : Rat → Value
  | bool : Bool → Value
deriving DecidableEq

/-- Python test `value == -999.9` on a decoded value: only a float can be
numerically equal to -999.9 (an int or bool never equals a non-integral
float). -/
def isSentinel : Value → Bool
  | Value.float q => q == (-999.9 : Rat)
  | _ => false

/-- Temperature-sentinel rule applied after decoding: a temperature field
equal to -999.9 becomes `None`. -/
def applySentinel (d : RegDef) (v : Value) : Option Value :=
  if d.entity_type == ("temperature") && isSentinel v then none else some v

/-- One address-space of the per-cycle `state` dict: address to raw
string. -/
abbrev Table := List (Nat × String)

/-- Decoding of one catalog entry against the raw tables: `Except.error`
models an uncaught parse exception, `Except.ok none` the `continue`
branches (address missing from the table, or unknown type tag), and
`Except.ok (some v)` the assignment `device_info[name] = v`. -/
def decodeOne (coilT regT : Table) (d : RegDef) : Except Unit (Option (Option Value)) :=
  let table := if d.data_type == DataTypes.Coil then coilT
               else if d.data_type == DataTypes.Register then regT else []
  match table.lookup d.address with
  | none => Except.ok none
  | some raw =>
    match d.type with
    | "int" =>
      match parse_ecoforest_int raw with
      | none => Except.error ()
      | some v => Except.ok (some (applySentinel d (Value.int v)))
    | "float" =>
      match parse_ecoforest_float raw with
      | none => Except.error ()
      | some q => Except.ok (some (applySentinel d (Value.float q)))
    | "boolean" =>
      match parse_ecoforest_bool raw with
      | none => Except.error ()
      | some b => Except.ok (some (applySentinel d (Value.bool b)))
    | _ => Except.ok none

/-- The decode loop of `EcoGeoApi.get`: fold the mapping in dict order
into the `device_info` dict, stopping at the first uncaught parse
exception. -/
def decodeAll (coilT regT : Table) (mapping : Mapping) :
    Except Unit (List (String × Option Value)) :=
  mapping.foldl (fun acc p =>
    match acc with
    | Except.error e => Except.error e
    | Except.ok info =>
      match decodeOne coilT regT p.2 with
      | Except.error _ => Except.error ()
      | Except.ok none => Except.ok info
      | Except.ok (some v) => Except.ok (updateAssoc info p.1 v)) (Except.ok [])

/-- The model alphabet `["--"] + string.digits + string.ascii_uppercase`
(37 symbols). -/
def model_dictionary : List String :=
  [("--"), ("0"), ("1"), ("2"), ("3"), ("4"), ("5"), ("6"), ("7"), ("8"), ("9"),
   ("A"), ("B"), ("C"), ("D"), ("E"), ("F"), ("G"), ("H"), ("I"), ("J"), ("K"),
   ("L"), ("M"), ("N"), ("O"), ("P"), ("Q"), ("R"), ("S"), ("T"), ("U"), ("V"),
   ("W"), ("X"), ("Y"), ("Z")]

/-- Python list indexing `l[i]`: a negative index counts from the end of
the list; an index out of range on either side raises, modelled as
`none`. -/
def pyIndex {α : Type} (l : List α) (i : Int) : Option α :=
  let j : Int := if i < 0 then (l.length : Int) + i else i
  if 0 ≤ j then l.get? j.toNat else none

/-- Symbol lookup of the model-detection comprehension: decode each raw
value as a signed 16-bit integer and index the alphabet with it;
the first failure propagates. -/
def detectSymbols : List String → Option (List String)
  | [] => some []
  | x :: xs =>
    match (parse_ecoforest_int x).bind (pyIndex model_dictionary) with
    | none => none
    | some sym => (detectSymbols xs).map (sym :: ·)

/-- Python `"".join`. -/
def joinStrings (l : List String) : String :=
  l.foldl (fun a b => a ++ b) ("")

/-- Model detection on the raw values of the model register block. -/
def detectModel (values : List String) : Option String :=
  (detectSymbols values).map joinStrings

/-- `EcoGeoApi._load_data` after a successful transport read: pair each
address of the block with the corresponding response entry; a response
shorter than the requested length raises (Python `IndexError`), extra
entries are ignored. -/
def load_data (address length : Nat) (resp : List String) :
    Option (List (Nat × String)) :=
  if resp.length < length then none
  else some ((List.range' address length).zip resp)

/-- The transport oracle: a read of (address, length, operation code) on
its given attempt index either delivers the response list or fails. -/
abbrev Reads := Nat → Nat → Nat → Nat → Option (List String)

/-- A read request as recorded in the trace: address, length, operation
code. -/
abbrev ReadReq := Nat × Nat × Nat

/-- One attempt of the retry loop body: transport read followed by
`_load_data`; any failure inside the `try` block is caught alike. -/
def attemptLoad (f : Reads) (op address length : Nat) (i : Nat) :
    Option (List (Nat × String)) :=
  match f address length op i with
  | none => none
  | some resp => load_data address length resp

/-- The retry loop `for i in range(3)` of `EcoGeoApi.get`, over the list
of attempt indices: on success stop; on failure sleep `2 ** i` when
`i < 4`, else re-raise.  Returns the loop outcome (`Except.error` models
the `raise`, `Except.ok none` falling through all attempts without
success), the sleeps performed, and the number of attempts made. -/
def retryAux {α : Type} (att : Nat → Option α) :
    List Nat → Except Unit (Option α) × List Nat × Nat
  | [] => (Except.ok none, [], 0)
  | i :: rest =>
    match att i with
    | some r => (Except.ok (some r), [], 1)
    | none =>
      if i < 4 then
        let (res, sleeps, n) := retryAux att rest
        (res, 2 ^ i :: sleeps, n + 1)
      else (Except.error (), [], 1)

/-- The retry loop with the source's attempt budget `range(3)`. -/
def retryRange {α : Type} (att : Nat → Option α) :
    Except Unit (Option α) × List Nat × Nat :=
  retryAux att (List.range 3)

/-- Python `state[dt].update(pairs)`. -/
def dictUpdate (t : Table) (pairs : List (Nat × String)) : Table :=
  pairs.foldl (fun acc p => updateAssoc acc p.1 p.2) t

/-- Sequential polling of the coalesced ranges of one address space,
threading the raw table, the request trace and the sleep log. -/
def pollRanges (f : Reads) (op : Nat) :
    List (Nat × Nat) → Table → Except Unit Table × List ReadReq × List Nat
  | [], t => (Except.ok t, [], [])
  | (address, len) :: rest, t =>
    let (res, sleeps, n) := retryRange (attemptLoad f op address len)
    let tr : List ReadReq := List.replicate n (address, len, op)
    match res with
    | Except.error _ => (Except.error (), tr, sleeps)
    | Except.ok none =>
      let (res2, tr2, sl2) := pollRanges f op rest t
      (res2, tr ++ tr2, sleeps ++ sl2)
    | Except.ok (some pairs) =>
      let (res2, tr2, sl2) := pollRanges f op rest (dictUpdate t pairs)
      (res2, tr ++ tr2, sleeps ++ sl2)

/-- The polling loop of `EcoGeoApi.get`: coils first, then registers. -/
def pollPhase (f : Reads) (r : Requests) :
    Except Unit (Table × Table) × List ReadReq × List Nat :=
  match pollRanges f (Operations.Get DataTypes.Coil) r.coil [] with
  | (Except.error _, tr, sl) => (Except.error (), tr, sl)
  | (Except.ok coilT, tr, sl) =>
    match pollRanges f (Operations.Get DataTypes.Register) r.register [] with
    | (Except.error _, tr2, sl2) => (Except.error (), tr ++ tr2, sl ++ sl2)
    | (Except.ok regT, tr2, sl2) => (Except.ok (coilT, regT), tr ++ tr2, sl ++ sl2)

/-- The module-level mutable state: the global `MAPPING` binding. -/
structure ModuleState where
  MAPPING : Mapping
deriving DecidableEq

/-- The load-time constants of the module.  `modbus_info.json` is not
part of the repository sources, so the two mappings and their request
tables (in the source, `_build_requests` of the corresponding mapping)
are held abstract. -/
structure Consts where
  DOMESTIC_MAPPING : Mapping
  HP_MAPPING : Mapping
  DOMESTIC_REQUESTS : Requests
  HP_REQUESTS : Requests

/-- The module's `HP_MODELS` set. -/
def HP_MODELS : List String := [("EATM00")]

/-- Per-instance state of `EcoGeoApi`. -/
structure Session where
  MAPPING : Mapping
  REQUESTS : Requests
  model_name : Option String
deriving DecidableEq

/-- `EcoGeoApi.__init__`: the instance mapping is whatever the global
`MAPPING` binding holds, the request table is unconditionally the
domestic one, and no model is resolved yet. -/
def EcoGeoApi_init (c : Consts) (g : ModuleState) : Session :=
  { MAPPING := g.MAPPING, REQUESTS := c.DOMESTIC_REQUESTS, model_name := none }

/-- The device snapshot handed to `EcoGeoDevice.build`. -/
structure Snapshot where
  model : Option String
  device_info : List (String × Option Value)
deriving DecidableEq

/-- Observable outcome of one `get` call: the snapshot (`none` models a
propagated exception), the instance state after the call, the global
state after the call, the reads issued, and the sleeps performed. -/
structure GetResult where
  result : Option Snapshot
  session : Session
  modstate : ModuleState
  trace : List ReadReq
  sleeps : List Nat
deriving DecidableEq

/-- The model-resolution prologue of `EcoGeoApi.get`: skipped entirely
when a model is cached; otherwise one read of the model block, symbol
decoding, catalog selection, and the write to the global `MAPPING`
binding.  A failure leaves instance and global state untouched (the
exception fires before the assignments). -/
def resolvePhase (c : Consts) (f : Reads) (s : Session) (g : ModuleState) :
    Option (Session × ModuleState) × List ReadReq :=
  match s.model_name with
  | some _ => (some (s, g), [])
  | none =>
    let op := Operations.Get DataTypes.Register
    let tr : List ReadReq := [(MODEL_ADDRESS, MODEL_LENGTH, op)]
    match f MODEL_ADDRESS MODEL_LENGTH op 0 with
    | none => (none, tr)
    | some resp =>
      match load_data MODEL_ADDRESS MODEL_LENGTH resp with
      | none => (none, tr)
      | some pairs =>
        match detectModel (pairs.map Prod.snd) with
        | none => (none, tr)
        | some name =>
          let s1 : Session :=
            if name ∈ HP_MODELS then
              { MAPPING := c.HP_MAPPING, REQUESTS := c.HP_REQUESTS,
                model_name := some name }
            else
              { MAPPING := c.DOMESTIC_MAPPING, REQUESTS := c.DOMESTIC_REQUESTS,
                model_name := some name }
          (some (s1, { MAPPING := s1.MAPPING }), tr)

/-- `EcoGeoApi.get`: model resolution, polling with retry, decoding. -/
def get (c : Consts) (f : Reads) (s : Session) (g : ModuleState) : GetResult :=
  match resolvePhase c f s g with
  | (none, tr) =>
      { result := none, session := s, modstate := g, trace := tr, sleeps := [] }
  | (some (s1, g1), tr) =>
    match pollPhase f s1.REQUESTS with
    | (Except.error _, tr2, sl) =>
        { result := none, session := s1, modstate := g1,
          trace := tr ++ tr2, sleeps := sl }
    | (Except.ok (coilT, regT), tr2, sl) =>
      match decodeAll coilT regT s1.MAPPING with
      | Except.error _ =>
          { result := none, session := s1, modstate := g1,
            trace := tr ++ tr2, sleeps := sl }
      | Except.ok info =>
          { result := some { model := s1.model_name, device_info := info },
            session := s1, modstate := g1, trace := tr ++ tr2, sleeps := sl }

-- Decidable equality for `Except`, used to evaluate concrete decode
-- outcomes.
deriving instance DecidableEq for Except

/-- The two-entry catalog of the end-to-end example: one Coil boolean at
address 100 and one Register float of Temperature category at address
200. -/
def c6cat : Mapping :=
  [(("field_a"), { data_type := DataTypes.Coil, type := ("boolean"), address := 100,
                   entity_type := ("measurement") }),
   (("field_b"), { data_type := DataTypes.Register, type := ("float"), address := 200,
                   entity_type := ("temperature") })]

/-- Request table matching `c6cat`: one single-address range per space. -/
def c1reqs : Requests := { register := [(200, 1)], coil := [(100, 1)] }

/-- A transport in which every coil read succeeds with the value 1 and
every register read fails on every attempt. -/
def c1reads : Reads := fun _ _ op _ => if op = 2001 then some [("1")] else none

/-- A session whose model is already resolved and whose catalog is
`c6cat`. -/
def c1session : Session :=
  { MAPPING := c6cat, REQUESTS := c1reqs, model_name := some ("X") }

/-- Arbitrary module constants for scenarios that never touch them. -/
def anyConsts : Consts :=
  { DOMESTIC_MAPPING := [], HP_MAPPING := [],
    DOMESTIC_REQUESTS := { register := [], coil := [] },
    HP_REQUESTS := { register := [], coil := [] } }

/-- A one-entry catalog standing in for the HP variant mapping. -/
def hpcat : Mapping :=
  [(("hp_only"), { data_type := DataTypes.Register, type := ("int"), address := 300,
                   entity_type := ("measurement") })]

/-- Module constants of the two-session scenario: the domestic catalog is
`c6cat`, the HP catalog is `hpcat`. -/
def c7consts : Consts :=
  { DOMESTIC_MAPPING := c6cat, HP_MAPPING := hpcat,
    DOMESTIC_REQUESTS := { register := [(200, 1)], coil := [(100, 1)] },
    HP_REQUESTS := { register := [(300, 1)], coil := [] } }

/-- A transport whose model-block read returns the symbol indices of the
identifier EATM00 (the known HP model) and whose data reads all fail. -/
def c7reads : Reads := fun address _ op _ =>
  if address = 5323 ∧ op = 2002 then
    some [("000F"), ("000B"), ("001E"), ("0017"), ("0001"), ("0001")]
  else none

/-- Initial global state of the two-session scenario: the module loads
with the domestic mapping bound to `MAPPING`. -/
def c7g0 : ModuleState := { MAPPING := c6cat }

/-- The first session of the two-session scenario, constructed before any
poll. -/
def c7s1 : Session := EcoGeoApi_init c7consts c7g0

/-- Key and definition derived from one analog item, as `_build_mapping`
computes them. -/
def analogDef (it : String × Nat) : String × RegDef :=
  (_slugify it.1,
   { data_type := DataTypes.Register, type := ("float"), address := it.2,
     entity_type := _infer_entity_type it.1 })

/-- Key and definition derived from one integer item, as `_build_mapping`
computes them. -/
def integerDef (it : String × Nat) : String × RegDef :=
  (_slugify it.1,
   { data_type := DataTypes.Register,
     type := if _infer_entity_type it.1 = ("power") ∨ _infer_entity_type it.1 = ("temperature")
             then ("float") else ("int"),
     address := it.2, entity_type := _infer_entity_type it.1 })

/-- Key and definition derived from one boolean item, as `_build_mapping`
computes them. -/
def booleanDef (it : String × Nat) : String × RegDef :=
  (_slugify it.1,
   { data_type := DataTypes.Coil, type := ("boolean"), address := it.2,
     entity_type := ("measurement") })

/-- All items of a variant block in `_build_mapping` processing order
(analog, then integer, then boolean), each with its derived key and
definition. -/
def blockItems (block : Block) : List (String × RegDef) :=
  block.analog.map analogDef ++ block.integer.map integerDef
    ++ block.boolean.map booleanDef

/-- A variant block containing two analog definitions whose names slug to
the same key `temp_a`. -/
def dupBlock : Block :=
  { analog := [(("Temp A"), 1), (("Temp:A"), 2)], integer := [], boolean := [] }

end EcoGeo

namespace EcoGeo

/-- Any single hex digit has value below 16. -/
theorem hexDigitVal_lt {c : Char} {d : Nat} (h : hexDigitVal c = some d) : d < 16 := by
  unfold hexDigitVal at h
  split at h
  · cases h; omega
  · split at h
    · cases h; omega
    · split at h
      · cases h; omega
      · cases h

/-- Digit folding bound: the accumulated value stays below
`(acc + 1) * 16 ^ length`. -/
theorem digitsToNat_lt (l : List Char) :
    ∀ acc v, digitsToNat hexDigitVal 16 l acc = some v → v < (acc + 1) * 16 ^ l.length := by
  induction l with
  | nil =>
      intro acc v h
      simp [digitsToNat] at h
      simp [h.symm]
  | cons c cs ih =>
      intro acc v h
      simp only [digitsToNat] at h
      cases hd : hexDigitVal c with
      | none => rw [hd] at h; cases h
      | some d =>
          rw [hd] at h
          have hb := ih (16 * acc + d) v h
          have hd16 : d < 16 := hexDigitVal_lt hd
          have : (16 * acc + d + 1) ≤ 16 * (acc + 1) := by omega
          simp only [List.length_cons]
          calc v < (16 * acc + d + 1) * 16 ^ cs.length := hb
            _ ≤ 16 * (acc + 1) * 16 ^ cs.length := Nat.mul_le_mul_right _ this
            _ = (acc + 1) * 16 ^ (cs.length + 1) := by rw [pow_succ]; ring

/-- Covered-address membership distributes over a cons of ranges. -/
theorem covered_cons {r : Nat × Nat} {rs : List (Nat × Nat)} {x : Nat} :
    covered (r :: rs) x ↔ (r.1 ≤ x ∧ x < r.1 + r.2) ∨ covered rs x := by
  simp [covered, List.mem_cons, or_and_right, exists_or]

/-- The scan always emits a first range opening at `start`. -/
theorem coalesceGo_head (l : List Nat) :
    ∀ start prev, ∃ n tl, coalesceGo start prev l = (start, n) :: tl := by
  induction l with
  | nil => intro start prev; exact ⟨prev - start + 1, [], rfl⟩
  | cons addr rest ih =>
      intro start prev
      by_cases h : addr ≠ prev + 1
      · exact ⟨prev - start + 1, coalesceGo addr addr rest, by simp [coalesceGo, h]⟩
      · obtain ⟨n, tl, htl⟩ := ih start addr
        exact ⟨n, tl, by simp [coalesceGo, h, htl]⟩

/-- Addresses covered by the scan output are exactly the open run
together with the remaining input. -/
theorem coalesceGo_covered (l : List Nat) :
    ∀ start prev, start ≤ prev → List.Chain (· < ·) prev l →
      ∀ x, covered (coalesceGo start prev l) x ↔ ((start ≤ x ∧ x ≤ prev) ∨ x ∈ l) := by
  induction l with
  | nil =>
      intro start prev hsp _ x
      simp only [coalesceGo]
      simp [covered]
      omega
  | cons addr rest ih =>
      intro start prev hsp hch x
      rcases hch with _ | ⟨h1, h2⟩
      by_cases h : addr ≠ prev + 1
      · have hIH := ih addr addr (le_refl _) h2 x
        simp only [coalesceGo, if_pos h, covered_cons, hIH, List.mem_cons]
        constructor
        · rintro (⟨ha, hb⟩ | ⟨ha, hb⟩ | hr)
          · exact Or.inl ⟨ha, by omega⟩
          · exact Or.inr (Or.inl (by omega))
          · exact Or.inr (Or.inr hr)
        · rintro (⟨ha, hb⟩ | rfl | hr)
          · exact Or.inl ⟨ha, by omega⟩
          · exact Or.inr (Or.inl ⟨le_refl _, le_refl _⟩)
          · exact Or.inr (Or.inr hr)
      · have haddr : addr = prev + 1 := by omega
        have hIH := ih start addr (by omega) h2 x
        simp only [coalesceGo, if_neg h, hIH, List.mem_cons]
        constructor
        · rintro (⟨ha, hb⟩ | hr)
          · by_cases hx : x ≤ prev
            · exact Or.inl ⟨ha, hx⟩
            · exact Or.inr (Or.inl (by omega))
          · exact Or.inr (Or.inr hr)
        · rintro (⟨ha, hb⟩ | rfl | hr)
          · exact Or.inl ⟨ha, by omega⟩
          · exact Or.inl ⟨by omega, by omega⟩
          · exact Or.inr hr

/-- Consecutive ranges emitted by the scan are separated by a gap of at
least one address. -/
theorem coalesceGo_chain (l : List Nat) :
    ∀ start prev, start ≤ prev → List.Chain (· < ·) prev l →
      List.Chain' (fun a b => a.1 + a.2 < b.1) (coalesceGo start prev l) := by
  induction l with
  | nil => intro start prev _ _; simp [coalesceGo]
  | cons addr rest ih =>
      intro start prev hsp hch
      rcases hch with _ | ⟨h1, h2⟩
      by_cases h : addr ≠ prev + 1
      · obtain ⟨n, tl, heq⟩ := coalesceGo_head rest addr addr
        simp only [coalesceGo, if_pos h, heq, List.chain'_cons]
        refine ⟨show start + (prev - start + 1) < addr by omega, ?_⟩
        rw [← heq]
        exact ih addr addr (le_refl _) h2
      · simp only [coalesceGo, if_neg h]
        exact ih start addr (by omega) h2

/-- Every range emitted by the scan has positive length. -/
theorem coalesceGo_len_pos (l : List Nat) :
    ∀ start prev r, r ∈ coalesceGo start prev l → 1 ≤ r.2 := by
  induction l with
  | nil =>
      intro start prev r hr
      simp only [coalesceGo, List.mem_singleton] at hr
      simp [hr]
  | cons addr rest ih =>
      intro start prev r hr
      by_cases h : addr ≠ prev + 1
      · simp only [coalesceGo, if_pos h, List.mem_cons] at hr
        rcases hr with rfl | hr
        · simp
        · exact ih addr addr r hr
      · simp only [coalesceGo, if_neg h] at hr
        exact ih start addr r hr

/-- Correctness of the coalescer on any duplicate-free address list:
gapped (hence disjoint, sorted and maximal) positive-length ranges whose
covered addresses are exactly the input. -/
theorem coalesce_spec (l : List Nat) (hnd : l.Nodup) :
    List.Chain' (fun a b => a.1 + a.2 < b.1) (coalesce l)
    ∧ (∀ r ∈ coalesce l, 1 ≤ r.2)
    ∧ (∀ x, covered (coalesce l) x ↔ x ∈ l) := by
  have hsort := List.sorted_insertionSort (· ≤ ·) l
  have hperm := List.perm_insertionSort (· ≤ ·) l
  have hnd' : (List.insertionSort (· ≤ ·) l).Nodup := hperm.nodup_iff.mpr hnd
  have hlt : (List.insertionSort (· ≤ ·) l).Sorted (· < ·) := hsort.lt_of_le hnd'
  rcases hls : List.insertionSort (· ≤ ·) l with _ | ⟨a, rest⟩
  · rw [hls] at hperm
    have : l = [] := hperm.symm.eq_nil
    subst this
    simp [coalesce, covered]
  · rw [hls] at hperm hlt
    have hch : List.Chain (· < ·) a rest := List.chain_iff_pairwise.mpr hlt
    have hco : coalesce l = coalesceGo a a rest := by
      simp [coalesce, hls]
    refine ⟨?_, ?_, ?_⟩
    · rw [hco]; exact coalesceGo_chain rest a a (le_refl _) hch
    · rw [hco]; exact coalesceGo_len_pos rest a a
    · intro x
      rw [hco, coalesceGo_covered rest a a (le_refl _) hch x, ← hperm.mem_iff,
        List.mem_cons]
      constructor
      · rintro (⟨h1, h2⟩ | hr)
        · exact Or.inl (by omega)
        · exact Or.inr hr
      · rintro (rfl | hr)
        · exact Or.inl ⟨le_refl _, le_refl _⟩
        · exact Or.inr hr

/-- Lookup after a dict assignment: the assigned key reads back the new
value, every other key is unchanged. -/
theorem lookup_updateAssoc {κ ν : Type} [BEq κ] [LawfulBEq κ]
    (m : List (κ × ν)) (k k' : κ) (v : ν) :
    (updateAssoc m k v).lookup k' = if k' == k then some v else m.lookup k' := by
  induction m with
  | nil => cases h : k' == k <;> simp [updateAssoc, List.lookup, h]
  | cons p rest ih =>
      rw [updateAssoc]
      by_cases hpk : (p.1 == k) = true
      · rw [if_pos hpk]
        have hk : p.1 = k := by simpa using hpk
        cases h : k' == k with
        | true => simp [List.lookup, h]
        | false => simp [List.lookup, h, hk]
      · rw [if_neg hpk]
        cases h2 : k' == p.1 with
        | true =>
            have hk'p : k' = p.1 := by simpa using h2
            have h1 : (k' == k) = false := by
              apply beq_false_of_ne
              intro hc
              exact hpk (by simp [← hk'p, hc])
            simp [List.lookup, h2, h1]
        | false => simp [List.lookup, h2, ih]

/-- Lookup in a dict built by folding assignments: the value of the
latest item carrying the key wins; a key no item carries falls back to
the initial dict. -/
theorem lookup_foldl_update {κ ν : Type} [BEq κ] [LawfulBEq κ]
    (l : List (κ × ν)) (k : κ) :
    ∀ m0 : List (κ × ν),
      ((l.foldl (fun m p => updateAssoc m p.1 p.2) m0).lookup k) =
        ((l.reverse.find? (fun p => p.1 == k)).map Prod.snd).or (m0.lookup k) := by
  induction l with
  | nil => intro m0; simp
  | cons p rest ih =>
      intro m0
      simp only [List.foldl_cons, List.reverse_cons, List.find?_append]
      rw [ih]
      cases hfind : rest.reverse.find? (fun q => q.1 == k) with
      | some q => simp [hfind]
      | none =>
          cases h : p.1 == k with
          | true =>
              have hk : p.1 = k := by simpa using h
              simp [List.find?, h, lookup_updateAssoc, hk]
          | false =>
              have hk : ¬(k = p.1) := fun hc => by simp [hc] at h
              simp [List.find?, h, lookup_updateAssoc, hk]

/-- The catalog builder is the fold of dict assignments over the block
items in processing order. -/
theorem _build_mapping_eq_fold (block : Block) :
    _build_mapping block =
      (blockItems block).foldl (fun m p => updateAssoc m p.1 p.2) [] := by
  simp [_build_mapping, blockItems, List.foldl_append, List.foldl_map,
    analogDef, integerDef, booleanDef]

/-- C2: for every finite set of non-negative integer addresses the
coalescer returns ranges separated by gaps (hence pairwise disjoint,
sorted ascending by start, and maximal: merging two neighbours would
have to bridge a missing address), all of positive length, whose covered
addresses equal the input set exactly; the empty set yields the empty
list and the set 5,6,7,10,11,20 yields the ranges (5,3), (10,2),
(20,1). -/
theorem C2_coalescer (s : Finset Nat) :
    List.Chain' (fun a b => a.1 + a.2 < b.1) (coalesce (s.sort (· ≤ ·)))
    ∧ List.Pairwise (fun a b => a.1 + a.2 < b.1) (coalesce (s.sort (· ≤ ·)))
    ∧ (∀ r ∈ coalesce (s.sort (· ≤ ·)), 1 ≤ r.2)
    ∧ (∀ x, covered (coalesce (s.sort (· ≤ ·))) x ↔ x ∈ s)
    ∧ coalesce [] = []
    ∧ coalesce [5, 6, 7, 10, 11, 20] = [(5, 3), (10, 2), (20, 1)] := by
  obtain ⟨hchain, hlen, hcov⟩ :=
    coalesce_spec (s.sort (· ≤ ·)) (Finset.sort_nodup (· ≤ ·) s)
  refine ⟨hchain, ?_, hlen, ?_, by decide, by decide⟩
  · exact (@List.chain'_iff_pairwise _ _ ⟨fun a b c h1 h2 => by omega⟩ _).mp hchain
  · intro x
    rw [hcov x, Finset.mem_sort]

/-- Witness: the coalescer claim instantiated at the sample set covers
the member 6. -/
theorem C2_coalescer_witness :
    covered (coalesce (({5, 6, 7, 10, 11, 20} : Finset Nat).sort (· ≤ ·))) 6 :=
  ((C2_coalescer {5, 6, 7, 10, 11, 20}).2.2.2.1 6).mpr (by decide)

/-- C3 counterexample: two definitions of the duplicate block slug to the
same key, yet building the catalog does not fail: it returns a catalog
with the single key and the later definition's data (silent last-wins
overwrite), so no duplicate-key error exists at build time. -/
theorem C3_counterexample :
    _slugify ("Temp A") = ("temp_a")
    ∧ _slugify ("Temp:A") = ("temp_a")
    ∧ _build_mapping dupBlock =
        [(("temp_a"),
          { data_type := DataTypes.Register, type := ("float"), address := 2,
            entity_type := ("measurement") })] := by decide

/-- C3 amended: catalog building never fails on duplicate keys; a later
definition slugging to an existing key silently overwrites the earlier
one, so every key reads back the definition of the last block item (in
analog, integer, boolean processing order) whose name slugs to it. -/
theorem C3_amended (block : Block) (k : String) :
    (_build_mapping block).lookup k =
      ((blockItems block).reverse.find? (fun p => p.1 == k)).map Prod.snd := by
  rw [_build_mapping_eq_fold, lookup_foldl_update]
  simp

/-- C4: the Int decoder parses its input as an unsigned base-16 integer v
and returns v - 65536 exactly when v exceeds 32768, otherwise v; over
4-hex-digit inputs the result lies in [-32767, 32768]. -/
theorem C4_int_decoder :
    (∀ s v, parseNatBase hexDigitVal 16 s = some v →
        parse_ecoforest_int s =
          some (if 32768 < v then (v : Int) - 65536 else (v : Int)))
    ∧ (∀ s v i, s.length = 4 → parseNatBase hexDigitVal 16 s = some v →
        parse_ecoforest_int s = some i → -32767 ≤ i ∧ i ≤ 32768) := by
  constructor
  · intro s v h
    rw [parse_ecoforest_int, h, Option.map_some']
    by_cases hv : 32768 < v
    · rw [if_neg (by omega), if_pos hv]
    · rw [if_pos (by omega), if_neg hv]
  · intro s v i hlen hparse hint
    have hparse' := hparse
    unfold parseNatBase at hparse'
    split at hparse'
    · cases hparse'
    · have hlen' : s.data.length = 4 := hlen
      have hbound := digitsToNat_lt s.data 0 v hparse'
      rw [hlen'] at hbound
      norm_num at hbound
      rw [parse_ecoforest_int, hparse, Option.map_some'] at hint
      injection hint with hi
      split at hi <;> omega

/-- Witness: the Int decoder claim at the input 8001 (value 32769). -/
theorem C4_int_decoder_witness :
    parse_ecoforest_int ("8001") =
      some (if 32768 < 32769 then ((32769 : Nat) : Int) - 65536 else ((32769 : Nat) : Int))
    ∧ (-32767 ≤ (-32767 : Int) ∧ (-32767 : Int) ≤ 32768) :=
  ⟨C4_int_decoder.1 ("8001") 32769 (by decide),
   C4_int_decoder.2 ("8001") 32769 (-32767) (by decide) (by decide) (by decide)⟩

/-- C5 counterexample: hex 8000 (value 32768) is kept unsigned by the
decoder's threshold, so it decodes to 32768 and not to -32768 as the
claim states. -/
theorem C5_counterexample : parse_ecoforest_int ("8000") ≠ some (-32768) := by decide

/-- C5 amended: Int decoding of hex 8000 yields 32768 (the threshold is
inclusive), of 7FFF yields 32767, of 0000 yields 0, and of 8001 yields
-32767. -/
theorem C5_amended :
    parse_ecoforest_int ("8000") = some 32768
    ∧ parse_ecoforest_int ("7FFF") = some 32767
    ∧ parse_ecoforest_int ("0000") = some 0
    ∧ parse_ecoforest_int ("8001") = some (-32767) := by decide

/-- Float decoding of hex 270F (unsigned 9999). -/
theorem parse_float_270F : parse_ecoforest_float ("270F") = some (999.9 : Rat) := by
  have h : parse_ecoforest_int ("270F") = some 9999 := by decide
  rw [parse_ecoforest_float, h]
  simp
  norm_num

/-- Float decoding of hex D8F1 (unsigned 55537, signed -9999). -/
theorem parse_float_D8F1 : parse_ecoforest_float ("D8F1") = some (-999.9 : Rat) := by
  have h : parse_ecoforest_int ("D8F1") = some (-9999) := by decide
  rw [parse_ecoforest_float, h]
  simp
  norm_num

/-- Float decoding of hex F601 (unsigned 62977, signed -2559). -/
theorem parse_float_F601 : parse_ecoforest_float ("F601") = some (-255.9 : Rat) := by
  have h : parse_ecoforest_int ("F601") = some (-2559) := by decide
  rw [parse_ecoforest_float, h]
  simp
  norm_num

/-- Decoding the boolean entry of the example catalog. -/
theorem decodeOne_field_a (rt : Table) :
    decodeOne [(100, ("1"))] rt
      { data_type := DataTypes.Coil, type := ("boolean"), address := 100,
        entity_type := ("measurement") } = Except.ok (some (some (Value.bool true))) := by
  simp [decodeOne, DataTypes.Register, DataTypes.Coil, List.lookup,
    parse_ecoforest_bool, parseNatBase, digitsToNat, decDigitVal,
    applySentinel, isSentinel]

/-- Decoding the float entry of the example catalog against one concrete
register value. -/
theorem decodeOne_field_b (raw : String) (q : Rat)
    (h : parse_ecoforest_float raw = some q) :
    decodeOne [(100, ("1"))] [(200, raw)]
      { data_type := DataTypes.Register, type := ("float"), address := 200,
        entity_type := ("temperature") } =
      Except.ok (some (if q == (-999.9 : Rat) then none else some (Value.float q))) := by
  simp only [decodeOne]
  simp [DataTypes.Register, DataTypes.Coil, List.lookup, h, applySentinel, isSentinel]

/-- The end-to-end decode of the example catalog, parameterised by the
raw register value. -/
theorem decodeAll_c6cat (raw : String) (q : Rat)
    (h : parse_ecoforest_float raw = some q) :
    decodeAll [(100, ("1"))] [(200, raw)] c6cat =
      Except.ok ((("field_a"), some (Value.bool true)) ::
        (if q == (-999.9 : Rat) then [(("field_b"), none)]
         else [(("field_b"), some (Value.float q))])) := by
  have ha := decodeOne_field_a [(200, raw)]
  have hb := decodeOne_field_b raw q h
  cases hq : q == (-999.9 : Rat) <;>
    simp [decodeAll, c6cat, ha, hb, hq, updateAssoc]

/-- C6 counterexample: with the raw table of the claim, field_b decodes
to 999.9 (0x270F is 9999), not 973.5; and with register value F601
field_b decodes to -255.9 and is not null, since F601 is -2559 signed
and not the sentinel. -/
theorem C6_counterexample :
    decodeAll [(100, ("1"))] [(200, ("270F"))] c6cat ≠
      Except.ok [(("field_a"), some (Value.bool true)),
                 (("field_b"), some (Value.float (973.5 : Rat)))]
    ∧ decodeAll [(100, ("1"))] [(200, ("F601"))] c6cat ≠
      Except.ok [(("field_a"), some (Value.bool true)), (("field_b"), none)] := by
  have h1 := decodeAll_c6cat ("270F") (999.9 : Rat) parse_float_270F
  have h2 := decodeAll_c6cat ("F601") (-255.9 : Rat) parse_float_F601
  rw [show ((999.9 : Rat) == (-999.9 : Rat)) = false by
        rw [beq_eq_false_iff_ne]; norm_num] at h1
  rw [show ((-255.9 : Rat) == (-999.9 : Rat)) = false by
        rw [beq_eq_false_iff_ne]; norm_num] at h2
  simp only [if_neg Bool.false_ne_true, Bool.false_eq_true, if_false] at h1 h2
  constructor
  · rw [h1]
    intro hc
    simp at hc
    norm_num at hc
  · rw [h2]
    intro hc
    simp at hc

/-- C6 amended: decode of the example raw table yields field_a true and
field_b 999.9; a register value decoding to the sentinel -999.9, such as
D8F1, makes field_b null; F601 decodes to -255.9 and is not nulled. -/
theorem C6_amended :
    decodeAll [(100, ("1"))] [(200, ("270F"))] c6cat =
      Except.ok [(("field_a"), some (Value.bool true)),
                 (("field_b"), some (Value.float (999.9 : Rat)))]
    ∧ parse_ecoforest_float ("D8F1") = some (-999.9 : Rat)
    ∧ decodeAll [(100, ("1"))] [(200, ("D8F1"))] c6cat =
      Except.ok [(("field_a"), some (Value.bool true)), (("field_b"), none)]
    ∧ parse_ecoforest_float ("F601") = some (-255.9 : Rat)
    ∧ decodeAll [(100, ("1"))] [(200, ("F601"))] c6cat =
      Except.ok [(("field_a"), some (Value.bool true)),
                 (("field_b"), some (Value.float (-255.9 : Rat)))] := by
  have h1 := decodeAll_c6cat ("270F") (999.9 : Rat) parse_float_270F
  have h2 := decodeAll_c6cat ("D8F1") (-999.9 : Rat) parse_float_D8F1
  have h3 := decodeAll_c6cat ("F601") (-255.9 : Rat) parse_float_F601
  rw [show ((999.9 : Rat) == (-999.9 : Rat)) = false by
        rw [beq_eq_false_iff_ne]; norm_num] at h1
  rw [show ((-999.9 : Rat) == (-999.9 : Rat)) = true by simp] at h2
  rw [show ((-255.9 : Rat) == (-999.9 : Rat)) = false by
        rw [beq_eq_false_iff_ne]; norm_num] at h3
  simp only [if_pos, if_neg Bool.false_ne_true, Bool.false_eq_true, if_false,
    if_true] at h1 h2 h3
  exact ⟨h1, parse_float_D8F1, h2, parse_float_F601, h3⟩

/-- The retry loop never re-raises while every attempt index is below 4:
it either succeeds or falls through with no value. -/
theorem retryAux_ok {α : Type} (att : Nat → Option α) (l : List Nat)
    (hl : ∀ i ∈ l, i < 4) :
    ∃ res sleeps n, retryAux att l = (Except.ok res, sleeps, n) := by
  induction l with
  | nil => exact ⟨none, [], 0, rfl⟩
  | cons i rest ih =>
      cases hatt : att i with
      | some r => exact ⟨some r, [], 1, by simp [retryAux, hatt]⟩
      | none =>
          obtain ⟨res, sleeps, n, hrec⟩ := ih fun j hj => hl j (List.mem_cons_of_mem _ hj)
          refine ⟨res, 2 ^ i :: sleeps, n + 1, ?_⟩
          simp [retryAux, hatt, hl i (List.mem_cons_self i rest), hrec]

/-- A range whose three attempts all fail: the loop sleeps 1, 2 and 4
(a sleep also follows the final attempt, since the guard `i < 4` holds
for every attempt index), makes 3 attempts, and falls through without
raising. -/
theorem retryRange_all_fail {α : Type} (att : Nat → Option α)
    (h0 : att 0 = none) (h1 : att 1 = none) (h2 : att 2 = none) :
    retryRange att = (Except.ok none, [1, 2, 4], 3) := by
  have hr : List.range 3 = [0, 1, 2] := by decide
  rw [retryRange, hr]
  simp [retryAux, h0, h1, h2]

/-- Polling a list of ranges always completes with a raw table, whatever
the transport does. -/
theorem pollRanges_ok (f : Reads) (op : Nat) :
    ∀ (l : List (Nat × Nat)) (t : Table),
      ∃ t' tr sl, pollRanges f op l t = (Except.ok t', tr, sl) := by
  intro l
  induction l with
  | nil => intro t; exact ⟨t, [], [], rfl⟩
  | cons r rest ih =>
      obtain ⟨address, len⟩ := r
      intro t
      obtain ⟨res, sleeps, n, hr⟩ :=
        retryAux_ok (attemptLoad f op address len) (List.range 3) (by decide)
      have hr' : retryRange (attemptLoad f op address len) = (Except.ok res, sleeps, n) := hr
      cases res with
      | none =>
          obtain ⟨t', tr2, sl2, h2⟩ := ih t
          exact ⟨t', List.replicate n (address, len, op) ++ tr2, sleeps ++ sl2,
            by simp [pollRanges, hr', h2]⟩
      | some pairs =>
          obtain ⟨t', tr2, sl2, h2⟩ := ih (dictUpdate t pairs)
          exact ⟨t', List.replicate n (address, len, op) ++ tr2, sleeps ++ sl2,
            by simp [pollRanges, hr', h2]⟩

/-- A full poll phase always completes with both raw tables. -/
theorem pollPhase_ok (f : Reads) (r : Requests) :
    ∃ tabs tr sl, pollPhase f r = (Except.ok tabs, tr, sl) := by
  obtain ⟨ct, tr1, sl1, h1⟩ := pollRanges_ok f (Operations.Get DataTypes.Coil) r.coil []
  obtain ⟨rt, tr2, sl2, h2⟩ :=
    pollRanges_ok f (Operations.Get DataTypes.Register) r.register []
  exact ⟨(ct, rt), tr1 ++ tr2, sl1 ++ sl2, by simp [pollPhase, h1, h2]⟩

/-- C1 counterexample: with the coil range of the example catalog
succeeding and the register range failing on all 3 attempts, `get` does
not propagate any error and does not abort the cycle: it sleeps 1, 2 and
4 units (one sleep after each failed attempt, including the final one)
and emits a snapshot containing the value of the earlier successful coil
range, with the failed range's field simply missing. -/
theorem C1_counterexample :
    get anyConsts c1reads c1session { MAPPING := c6cat } =
      { result := some { model := some ("X"),
                         device_info := [(("field_a"), some (Value.bool true))] },
        session := c1session, modstate := { MAPPING := c6cat },
        trace := [(100, 1, 2001), (200, 1, 2002), (200, 1, 2002), (200, 1, 2002)],
        sleeps := [1, 2, 4] } := by decide

/-- C1 amended: a coalesced range failing all 3 attempts does not abort
the poll cycle and no failure propagates: the retry loop sleeps 2^0, 2^1
and 2^2 time units (a delay also after the final attempt, because the
dead guard `i < 4` always holds), then falls through leaving that
range's values out, and the poll phase always completes its raw tables,
so a snapshot of the remaining ranges is still produced. -/
theorem C1_amended :
    (∀ (α : Type) (att : Nat → Option α),
        att 0 = none → att 1 = none → att 2 = none →
        retryRange att = (Except.ok none, [1, 2, 4], 3))
    ∧ (∀ (f : Reads) (r : Requests),
        ∃ tabs tr sl, pollPhase f r = (Except.ok tabs, tr, sl)) :=
  ⟨fun _ att h0 h1 h2 => retryRange_all_fail att h0 h1 h2,
   fun f r => pollPhase_ok f r⟩

/-- Witness: the amended retry behaviour at the always-failing attempt
function. -/
theorem C1_amended_witness :
    retryRange (fun _ : Nat => (none : Option (List (Nat × String)))) =
      (Except.ok none, [1, 2, 4], 3) :=
  C1_amended.1 _ (fun _ => none) rfl rfl rfl

/-- With a cached model the resolution prologue is a no-op with an empty
trace. -/
theorem resolvePhase_cached (c : Consts) (f : Reads) (s : Session) (g : ModuleState)
    (m : String) (h : s.model_name = some m) :
    resolvePhase c f s g = (some (s, g), []) := by
  simp [resolvePhase, h]

/-- With no cached model the prologue reads exactly the model block, and
on success installs a catalog selected by the detected name and writes
the same mapping to the global binding. -/
theorem resolvePhase_fresh (c : Consts) (f : Reads) (s : Session) (g : ModuleState)
    (h : s.model_name = none) :
    (resolvePhase c f s g).2 =
      [(MODEL_ADDRESS, MODEL_LENGTH, Operations.Get DataTypes.Register)]
    ∧ (∀ s1 g1, (resolvePhase c f s g).1 = some (s1, g1) →
        ∃ name,
          s1 = (if name ∈ HP_MODELS then
                  { MAPPING := c.HP_MAPPING, REQUESTS := c.HP_REQUESTS,
                    model_name := some name }
                else
                  { MAPPING := c.DOMESTIC_MAPPING, REQUESTS := c.DOMESTIC_REQUESTS,
                    model_name := some name })
          ∧ g1 = { MAPPING := s1.MAPPING }) := by
  simp only [resolvePhase, h]
  cases hf : f MODEL_ADDRESS MODEL_LENGTH (Operations.Get DataTypes.Register) 0 with
  | none => simp [hf]
  | some resp =>
    simp only [hf]
    cases hl : load_data MODEL_ADDRESS MODEL_LENGTH resp with
    | none => simp [hl]
    | some pairs =>
      simp only [hl]
      cases hdm : detectModel (pairs.map Prod.snd) with
      | none => simp [hdm]
      | some name =>
          simp only [hdm]
          refine ⟨by trivial, ?_⟩
          intro s1 g1 hs
          simp only [Option.some.injEq, Prod.mk.injEq] at hs
          exact ⟨name, hs.1.symm, by rw [← hs.2, ← hs.1]⟩

/-- Shape of a `get` call whose resolution prologue failed: the failure
propagates with no state change and no polling. -/
theorem get_unresolved_shape (c : Consts) (f : Reads) (s : Session) (g : ModuleState)
    (tr : List ReadReq) (h : resolvePhase c f s g = (none, tr)) :
    get c f s g =
      { result := none, session := s, modstate := g, trace := tr, sleeps := [] } := by
  simp [get, h]

/-- Shape of a `get` call whose resolution prologue succeeded: the
resolved session and global state are returned, the trace is the
prologue trace followed by the poll trace of the resolved request table,
and any emitted snapshot carries the resolved model name. -/
theorem get_resolved_shape (c : Consts) (f : Reads) (s : Session) (g : ModuleState)
    (s1 : Session) (g1 : ModuleState) (tr : List ReadReq)
    (h : resolvePhase c f s g = (some (s1, g1), tr)) :
    (get c f s g).session = s1 ∧ (get c f s g).modstate = g1
    ∧ (get c f s g).trace = tr ++ (pollPhase f s1.REQUESTS).2.1
    ∧ (get c f s g).sleeps = (pollPhase f s1.REQUESTS).2.2
    ∧ ∀ snap, (get c f s g).result = some snap → snap.model = s1.model_name := by
  obtain ⟨⟨ct, rt⟩, tr2, sl2, hp⟩ := pollPhase_ok f s1.REQUESTS
  cases hd : decodeAll ct rt s1.MAPPING with
  | error e =>
      have hget : get c f s g =
          { result := none, session := s1, modstate := g1,
            trace := tr ++ tr2, sleeps := sl2 } := by
        simp [get, h, hp, hd]
      rw [hget]
      exact ⟨rfl, rfl, by rw [hp], by rw [hp], fun snap hsnap => nomatch hsnap⟩
  | ok info =>
      have hget : get c f s g =
          { result := some { model := s1.model_name, device_info := info },
            session := s1, modstate := g1, trace := tr ++ tr2, sleeps := sl2 } := by
        simp [get, h, hp, hd]
      rw [hget]
      refine ⟨rfl, rfl, by rw [hp], by rw [hp], ?_⟩
      intro snap hsnap
      injection hsnap with h1
      rw [← h1]

/-- C7 counterexample: the first session of the two-session scenario
resolves the HP model on its first poll, which mutates the process-wide
`MAPPING` binding, and a session constructed afterwards observes the
changed binding: the claim that no process-wide binding is mutated is
false. -/
theorem C7_counterexample :
    (get c7consts c7reads c7s1 c7g0).modstate ≠ c7g0
    ∧ EcoGeoApi_init c7consts (get c7consts c7reads c7s1 c7g0).modstate ≠
        EcoGeoApi_init c7consts c7g0 := by decide

/-- C7 amended: model resolution does mutate the process-wide binding:
a poll with a cached model leaves the global state (and session)
unchanged; a poll whose resolution fails leaves the global unchanged;
but a poll that resolves a model writes the resolved session's mapping
to the global `MAPPING` binding, which later-constructed sessions then
observe. -/
theorem C7_amended (c : Consts) (f : Reads) (s : Session) (g : ModuleState) :
    (∀ m, s.model_name = some m →
        (get c f s g).modstate = g ∧ (get c f s g).session = s)
    ∧ (s.model_name = none → (get c f s g).session.model_name = none →
        (get c f s g).modstate = g)
    ∧ (s.model_name = none → ∀ m, (get c f s g).session.model_name = some m →
        (get c f s g).modstate.MAPPING = (get c f s g).session.MAPPING) := by
  refine ⟨?_, ?_, ?_⟩
  · intro m h
    have hs := get_resolved_shape c f s g s g [] (resolvePhase_cached c f s g m h)
    exact ⟨hs.2.1, hs.1⟩
  · intro h hnone
    rcases hres : resolvePhase c f s g with ⟨o, tr⟩
    cases o with
    | none => rw [get_unresolved_shape c f s g tr hres]
    | some p =>
        obtain ⟨s1, g1⟩ := p
        obtain ⟨name, hs1, hg1⟩ :=
          (resolvePhase_fresh c f s g h).2 s1 g1 (by rw [hres])
        have hshape := get_resolved_shape c f s g s1 g1 tr hres
        rw [hshape.1] at hnone
        exfalso
        by_cases hname : name ∈ HP_MODELS <;> simp [hs1, hname] at hnone
  · intro h m hm
    rcases hres : resolvePhase c f s g with ⟨o, tr⟩
    cases o with
    | none =>
        rw [get_unresolved_shape c f s g tr hres] at hm
        rw [h] at hm
        cases hm
    | some p =>
        obtain ⟨s1, g1⟩ := p
        obtain ⟨name, hs1, hg1⟩ :=
          (resolvePhase_fresh c f s g h).2 s1 g1 (by rw [hres])
        have hshape := get_resolved_shape c f s g s1 g1 tr hres
        rw [hshape.1, hshape.2.1, hg1]

/-- Witness: the amended mutation claim at the two-session scenario. -/
theorem C7_amended_witness :
    (get c7consts c7reads c7s1 c7g0).modstate.MAPPING =
      (get c7consts c7reads c7s1 c7g0).session.MAPPING :=
  (C7_amended c7consts c7reads c7s1 c7g0).2.2 rfl ("EATM00") (by decide)

/-- C8: the model identifier and active catalog are resolved at most once
per session: a poll on a session with a cached model performs exactly the
data reads of the active request table (no model-block read), leaves the
session and global state unchanged, and any emitted snapshot carries the
cached model name; a poll on a fresh session starts with the model-block
read. -/
theorem C8_model_resolved_once :
    (∀ (c : Consts) (f : Reads) (s : Session) (g : ModuleState) (m : String),
        s.model_name = some m →
        (get c f s g).session = s
        ∧ (get c f s g).modstate = g
        ∧ (get c f s g).trace = (pollPhase f s.REQUESTS).2.1
        ∧ ∀ snap, (get c f s g).result = some snap → snap.model = some m)
    ∧ (∀ (c : Consts) (f : Reads) (s : Session) (g : ModuleState),
        s.model_name = none →
        ∃ rest, (get c f s g).trace =
          (MODEL_ADDRESS, MODEL_LENGTH, Operations.Get DataTypes.Register) :: rest) := by
  constructor
  · intro c f s g m h
    have hs := get_resolved_shape c f s g s g [] (resolvePhase_cached c f s g m h)
    refine ⟨hs.1, hs.2.1, ?_, ?_⟩
    · rw [hs.2.2.1]; simp
    · intro snap hsnap
      exact (hs.2.2.2.2 snap hsnap).trans h
  · intro c f s g h
    rcases hres : resolvePhase c f s g with ⟨o, tr⟩
    have htr : tr = [(MODEL_ADDRESS, MODEL_LENGTH, Operations.Get DataTypes.Register)] := by
      have h1 := (resolvePhase_fresh c f s g h).1
      rw [hres] at h1
      exact h1
    cases o with
    | none =>
        rw [get_unresolved_shape c f s g tr hres, htr]
        exact ⟨[], rfl⟩
    | some p =>
        obtain ⟨s1, g1⟩ := p
        have hshape := get_resolved_shape c f s g s1 g1 tr hres
        rw [hshape.2.2.1, htr]
        exact ⟨(pollPhase f s1.REQUESTS).2.1, rfl⟩

/-- Witness: the cached-model claim at the example session. -/
theorem C8_model_resolved_once_witness :
    (get anyConsts c1reads c1session { MAPPING := c6cat }).trace =
      (pollPhase c1reads c1session.REQUESTS).2.1 :=
  (C8_model_resolved_once.1 anyConsts c1reads c1session
    { MAPPING := c6cat } ("X") rfl).2.2.1

/-- C10: a new session starts with the domestic request table
unconditionally while its initial mapping is whatever the global
`MAPPING` binding holds at construction time; hence after another
session resolved the HP model, a newly constructed session begins with
the HP field mapping paired with the domestic request ranges. -/
theorem C10_init_state (c : Consts) (g : ModuleState) :
    EcoGeoApi_init c g =
      { MAPPING := g.MAPPING, REQUESTS := c.DOMESTIC_REQUESTS, model_name := none }
    ∧ (∀ (f : Reads) (s : Session) (m : String),
        s.model_name = none → (get c f s g).session.model_name = some m →
        m ∈ HP_MODELS →
        (get c f s g).modstate.MAPPING = c.HP_MAPPING
        ∧ EcoGeoApi_init c (get c f s g).modstate =
            { MAPPING := c.HP_MAPPING, REQUESTS := c.DOMESTIC_REQUESTS,
              model_name := none }) := by
  refine ⟨rfl, ?_⟩
  intro f s m h hm hHP
  rcases hres : resolvePhase c f s g with ⟨o, tr⟩
  cases o with
  | none =>
      rw [get_unresolved_shape c f s g tr hres] at hm
      rw [h] at hm
      cases hm
  | some p =>
      obtain ⟨s1, g1⟩ := p
      obtain ⟨name, hs1, hg1⟩ :=
        (resolvePhase_fresh c f s g h).2 s1 g1 (by rw [hres])
      have hshape := get_resolved_shape c f s g s1 g1 tr hres
      rw [hshape.1] at hm
      have hmn : m = name := by
        by_cases hn : name ∈ HP_MODELS
        · rw [hs1, if_pos hn] at hm
          have h2 : name = m := by simpa using hm
          exact h2.symm
        · rw [hs1, if_neg hn] at hm
          have h2 : name = m := by simpa using hm
          exact h2.symm
      subst hmn
      have hs1m : s1.MAPPING = c.HP_MAPPING := by rw [hs1, if_pos hHP]
      rw [hshape.2.1, hg1]
      exact ⟨by rw [hs1m], by simp [EcoGeoApi_init, hs1m]⟩

/-- Python indexing of the 37-symbol model alphabet fails exactly outside
[-37, 36]. -/
theorem pyIndex_model_none (i : Int) :
    pyIndex model_dictionary i = none ↔ (i < -37 ∨ 37 ≤ i) := by
  have hlen : model_dictionary.length = 37 := rfl
  by_cases hi : i < 0
  · by_cases h0 : (0 : Int) ≤ 37 + i
    · have heq : pyIndex model_dictionary i = model_dictionary.get? (37 + i).toNat := by
        simp [pyIndex, hlen, hi, h0]
      rw [heq, List.get?_eq_none, hlen]
      omega
    · have heq : pyIndex model_dictionary i = none := by
        simp [pyIndex, hlen, hi, h0]
      rw [heq]
      simp
      omega
  · have heq : pyIndex model_dictionary i = model_dictionary.get? i.toNat := by
      simp [pyIndex, hi]
    rw [heq, List.get?_eq_none, hlen]
    omega

/-- A raw value whose decoded index is rejected by the alphabet lookup
makes the whole symbol comprehension fail. -/
theorem detectSymbols_mem_none (values : List String) (x : String) (i : Int)
    (hmem : x ∈ values) (hparse : parse_ecoforest_int x = some i)
    (hpy : pyIndex model_dictionary i = none) :
    detectSymbols values = none := by
  induction values with
  | nil => cases hmem
  | cons y ys ih =>
      rcases List.mem_cons.mp hmem with rfl | hmem'
      · simp [detectSymbols, hparse, hpy]
      · cases hhead : (parse_ecoforest_int y).bind (pyIndex model_dictionary) with
        | none => simp [detectSymbols, hhead]
        | some sym => simp [detectSymbols, hhead, ih hmem']

/-- C9 counterexample: the raw value FFFF decodes to the index -1, which
names no alphabet symbol, yet detection does not raise: the Python
negative index wraps to the end of the alphabet and detection produces
the identifier Z00000. -/
theorem C9_counterexample :
    parse_ecoforest_int ("FFFF") = some (-1)
    ∧ detectModel [("FFFF"), ("0001"), ("0001"), ("0001"), ("0001"), ("0001")] =
        some ("Z00000") := by decide

/-- C9 amended: model detection fails with an index error exactly when a
decoded index falls outside [-37, 36]: an index in [0, 36] selects that
symbol, a negative index in [-37, -1] wraps Python-style to the symbol
at position 37 + i, and any decoded value outside [-37, 36] anywhere in
the block makes detection raise instead of producing an identifier. -/
theorem C9_amended :
    model_dictionary.length = 37
    ∧ (∀ i : Int, pyIndex model_dictionary i = none ↔ (i < -37 ∨ 37 ≤ i))
    ∧ (∀ i : Int, -37 ≤ i → i < 0 →
        pyIndex model_dictionary i = model_dictionary.get? (37 + i).toNat)
    ∧ (∀ (values : List String) (x : String) (i : Int),
        x ∈ values → parse_ecoforest_int x = some i → (i < -37 ∨ 37 ≤ i) →
        detectModel values = none) := by
  refine ⟨rfl, pyIndex_model_none, ?_, ?_⟩
  · intro i h1 h2
    simp [pyIndex, h2, show model_dictionary.length = 37 from rfl, show (0 : Int) ≤ 37 + i by omega]
  · intro values x i hmem hparse hout
    have hpy : pyIndex model_dictionary i = none := (pyIndex_model_none i).mpr hout
    rw [detectModel, detectSymbols_mem_none values x i hmem hparse hpy]
    rfl

/-- Witness: the amended detection claim at concrete indices. -/
theorem C9_amended_witness :
    pyIndex model_dictionary (-40) = none
    ∧ pyIndex model_dictionary (-1) = model_dictionary.get? ((37 : Int) + (-1)).toNat
    ∧ detectModel [("0025"), ("0001")] = none :=
  ⟨(C9_amended.2.1 (-40)).mpr (by decide),
   C9_amended.2.2.1 (-1) (by decide) (by decide),
   C9_amended.2.2.2 [("0025"), ("0001")] ("0025") 37 (by decide) (by decide) (by decide)⟩

/-- Witness: the construction-after-resolution claim at the two-session
scenario. -/
theorem C10_init_state_witness :
    (get c7consts c7reads c7s1 c7g0).modstate.MAPPING = c7consts.HP_MAPPING
    ∧ EcoGeoApi_init c7consts (get c7consts c7reads c7s1 c7g0).modstate =
        { MAPPING := c7consts.HP_MAPPING, REQUESTS := c7consts.DOMESTIC_REQUESTS,
          model_name := none } :=
  (C10_init_state c7consts c7g0).2 c7reads c7s1 ("EATM00") rfl (by decide) (by decide)

end EcoGeo
